import Mathlib

/-!
Shallow embedding of the path-construction, transition and selection logic of
the react-native-graph fork (AnimatedLineGraph.tsx and StaticLineGraph.tsx),
together with models of the collaborating modules (CreateGraphPath, GetYForX,
and the Skia path operations) that the component calls.

Pixel coordinates, data values and the interpolation progress are modelled as
rationals; a Skia path is a list of path commands.
-/

set_option autoImplicit false

namespace RNGraph

/-- A point in drawing-surface coordinates (x grows rightwards, y downwards). -/
structure Point where
  x : ℚ
  y : ℚ
deriving DecidableEq, Repr

/-- One Skia path command, as produced by Path.moveTo / lineTo / cubicTo. -/
inductive PathCmd where
  | moveTo (p : Point)
  | lineTo (p : Point)
  | cubicTo (c1 c2 p : Point)
deriving DecidableEq, Repr

/-- A Curve is the flattened command sequence of a Skia path (path.toCmds). -/
abbrev Curve := List PathCmd

/-- The control points that a command carries, in order. -/
def cmdPoints : PathCmd → List Point
  | .moveTo p => [p]
  | .lineTo p => [p]
  | .cubicTo c1 c2 p => [c1, c2, p]

/-- Whether two commands carry the same verb (Skia compares verb sequences). -/
def sameVerb : PathCmd → PathCmd → Bool
  | .moveTo _, .moveTo _ => true
  | .lineTo _, .lineTo _ => true
  | .cubicTo _ _ _, .cubicTo _ _ _ => true
  | _, _ => false

/-- Model of SkPath.isInterpolatable: the two paths have the same verb
sequence (hence the same point count), so a pointwise blend is defined. -/
def isInterpolatable : Curve → Curve → Bool
  | [], [] => true
  | a :: as, b :: bs => sameVerb a b && isInterpolatable as bs
  | _, _ => false

/-- Weighted average of two points, weight w on the first (receiver) point:
Skia computes receiver * weight + ending * (1 - weight). -/
def blendPoint (w : ℚ) (p q : Point) : Point :=
  ⟨w * p.x + (1 - w) * q.x, w * p.y + (1 - w) * q.y⟩

/-- Pointwise blend of two commands of the same verb (first argument wins on a
verb mismatch; interpolate only ever uses it under an isInterpolatable guard). -/
def blendCmd (w : ℚ) : PathCmd → PathCmd → PathCmd
  | .moveTo p, .moveTo q => .moveTo (blendPoint w p q)
  | .lineTo p, .lineTo q => .lineTo (blendPoint w p q)
  | .cubicTo a1 a2 a3, .cubicTo b1 b2 b3 =>
      .cubicTo (blendPoint w a1 b1) (blendPoint w a2 b2) (blendPoint w a3 b3)
  | c, _ => c

/-- Model of SkPath.interpolate: a.interpolate(b, w) returns the pointwise
blend w * a + (1 - w) * b when the two paths are interpolatable, and null
otherwise. -/
def interpolate (a b : Curve) (w : ℚ) : Option Curve :=
  if isInterpolatable a b then some (List.zipWith (blendCmd w) a b) else none

/-- The pair of transition endpoints held in a pathsValues / gradientPaths
cell: \x7b from?: SkPath; to?: SkPath \x7d. -/
structure CurvePair where
  fromC : Option Curve := none
  toC : Option Curve := none
deriving DecidableEq, Repr

/-- The flat placeholder path built in AnimatedLineGraph.tsx (straightLine):
moveTo(0, height/2) followed by a degenerate cubic at (i, height/2) for each
even i with i < width - 1; there are width / 2 such iterations. -/
def straightLine (width height : ℕ) : Curve :=
  .moveTo ⟨0, (height : ℚ) / 2⟩ ::
    (List.range (width / 2)).map fun k =>
      .cubicTo ⟨2 * (k : ℚ), (height : ℚ) / 2⟩ ⟨2 * (k : ℚ), (height : ℚ) / 2⟩
        ⟨2 * (k : ℚ), (height : ℚ) / 2⟩

/-- One series of the rebuild effect in AnimatedLineGraph.tsx (lines 267 to
289): the base for the new `from` is previous.to ?? straightLine; when
previous.from is non-null and the in-flight progress is below 1, the base is
interpolated towards previous.from at that progress (falling back to the base
when interpolation returns null); the new pair is then published as
(from, newPath) when the fresh path is interpolatable with that `from`, and as
the hard cut (newPath, newPath) otherwise. -/
def rebuildPair (previous : CurvePair) (progress : ℚ) (newPath sl : Curve) :
    CurvePair :=
  let base := previous.toC.getD sl
  let fromV :=
    match previous.fromC with
    | some pf => if progress < 1 then (interpolate base pf progress).getD base else base
    | none => base
  if isInterpolatable newPath fromV then ⟨some fromV, some newPath⟩
  else ⟨some newPath, some newPath⟩

/-- The per-series render computation (paths / gradientPath useComputedValue):
to.interpolate(from, progress) after substituting straightLine for an absent
endpoint; null (here none) when the two endpoints are not interpolatable. -/
def renderPath (pair : CurvePair) (sl : Curve) (progress : ℚ) : Option Curve :=
  interpolate (pair.toC.getD sl) (pair.fromC.getD sl) progress


/-- A data sample: \x7b date, value \x7d. -/
structure Sample where
  date : ℚ
  value : ℚ
deriving DecidableEq, Repr

/-- One axis of a resolved range. -/
structure RangeAxis where
  min : ℚ
  max : ℚ
deriving DecidableEq, Repr

/-- A fully resolved GraphPathRange: x and y axis windows. -/
structure GraphPathRange where
  x : RangeAxis
  y : RangeAxis
deriving DecidableEq, Repr

/-- A caller range override; each axis may be left unsupplied. -/
structure GraphRange where
  x : Option RangeAxis := none
  y : Option RangeAxis := none
deriving DecidableEq, Repr

/-- Modelled from the spec: CreateGraphPath.getGraphPathRange is not under
src/. The Range Resolver: the x axis is the override or the first and last
sample dates; the y axis is the override or the min and max value over all
points. -/
def getGraphPathRange (points : List Sample) (range : Option GraphRange) :
    GraphPathRange :=
  let dates := points.map (·.date)
  let values := points.map (·.value)
  let xAxis := ((range.bind (·.x)).getD
    ⟨dates.headD 0, (dates.getLast?).getD 0⟩ : RangeAxis)
  let yAxis := ((range.bind (·.y)).getD
    ⟨values.foldr Min.min (values.headD 0),
     values.foldr Max.max (values.headD 0)⟩ : RangeAxis)
  ⟨xAxis, yAxis⟩

/-- Modelled from the spec: CreateGraphPath.getPointsInRange is not under
src/. The Point Filter keeps, in order, the points whose date lies within the
resolved x window, boundaries included. -/
def getPointsInRange (points : List Sample) (range : GraphPathRange) :
    List Sample :=
  points.filter fun p =>
    decide (range.x.min ≤ p.date) && decide (p.date ≤ range.x.max)

/-- Modelled from the spec: CreateGraphPath.getXInRange is not under src/.
Fraction of the x window covered at `date`, scaled to `width`; a zero-span
axis resolves the fraction to the midpoint 1/2. -/
def getXInRange (width date : ℚ) (axis : RangeAxis) : ℚ :=
  width * (if axis.max = axis.min then 1 / 2
           else (date - axis.min) / (axis.max - axis.min))

/-- The argument record passed to createGraphPath in AnimatedLineGraph.tsx. -/
structure GraphPathConfig where
  pointsInRange : List Sample
  range : GraphPathRange
  horizontalPadding : ℚ
  verticalPadding : ℚ
  canvasHeight : ℚ
  canvasWidth : ℚ
deriving DecidableEq, Repr

/-- Modelled from the spec: the pixel mapping of the Path Builder. x is
padding plus the x-window fraction scaled over the padded width; y inverts
the value axis (raster convention), with a zero-span fraction of 1/2. -/
def pixelPoint (cfg : GraphPathConfig) (p : Sample) : Point :=
  let fracY : ℚ :=
    if cfg.range.y.max = cfg.range.y.min then 1 / 2
    else (p.value - cfg.range.y.min) / (cfg.range.y.max - cfg.range.y.min)
  ⟨cfg.horizontalPadding +
     getXInRange (cfg.canvasWidth - 2 * cfg.horizontalPadding) p.date cfg.range.x,
   cfg.verticalPadding + (1 - fracY) * (cfg.canvasHeight - 2 * cfg.verticalPadding)⟩

/-- One cubic segment from p1 to p2 whose control points come from a
Catmull-Rom style tangent estimate using the neighbours p0 and p3. -/
def catmullSegment (p0 p1 p2 p3 : Point) : PathCmd :=
  .cubicTo ⟨p1.x + (p2.x - p0.x) / 6, p1.y + (p2.y - p0.y) / 6⟩
    ⟨p2.x - (p3.x - p1.x) / 6, p2.y - (p3.y - p1.y) / 6⟩ p2

/-- The chain of cubic segments through a list of mapped points, with
neighbour indices clamped at the two ends. -/
def cubicSegments (pts : List Point) : List PathCmd :=
  (List.range (pts.length - 1)).map fun i =>
    let g := fun j => pts.getD j ⟨0, 0⟩
    catmullSegment (g (i - 1)) (g i) (g (i + 1)) (g (min (i + 2) (pts.length - 1)))

/-- Modelled from the spec: CreateGraphPath.createGraphPath is not under src/.
The Path Builder maps the filtered points into pixel space and emits a moveTo
followed by a smooth cubic chain; fewer than two points degenerate to an empty
or single-command path. -/
def createGraphPath (cfg : GraphPathConfig) : Curve :=
  let pts := cfg.pointsInRange.map (pixelPoint cfg)
  match pts with
  | [] => []
  | p :: _ => .moveTo p :: cubicSegments pts

/-- Modelled from the spec: CreateGraphPath.createGraphPathWithGradient is not
under src/. It returns the stroke path plus a gradient path: the stroke path
with two extra segments dropping to the canvas baseline at the last x and
returning to the baseline at the first x. -/
def createGraphPathWithGradient (cfg : GraphPathConfig) : Curve × Curve :=
  let path := createGraphPath cfg
  let pts := cfg.pointsInRange.map (pixelPoint cfg)
  let firstX := ((pts.head?).map (·.x)).getD 0
  let lastX := ((pts.getLast?).map (·.x)).getD 0
  (path,
   path ++ [.lineTo ⟨lastX, cfg.canvasHeight⟩, .lineTo ⟨firstX, cfg.canvasHeight⟩])

/-- The mutable cells of AnimatedLineGraph that the rebuild effect reads and
writes: the per-series pathsValues pairs, the gradientPaths pair, the stray
property slot written by the line gradientPaths[0] = gradientPathNew, the
per-series flattened commands, and the per-series interpolation progress. -/
structure GraphState where
  pathsValues : List CurvePair
  gradientPair : CurvePair
  gradientStash : Option Curve
  commands : List Curve
  progresses : List ℚ
deriving DecidableEq, Repr

/-- Sequence a list of optional curves, failing on the first absent entry;
this is the paths.forEach loop that calls toCmds on every entry, which
throws on a non-path placeholder. -/
def allSome : List (Option Curve) → Option (List Curve)
  | [] => some []
  | none :: _ => none
  | some c :: rest => (allSome rest).map (c :: ·)

/-- The tail of the rebuild effect: flatten each built path to commands
(toCmds throws on a placeholder entry, modelled by none), evaluate the
gradient publish guard on the untouched all-null local array (so that block
is dead code), publish the per-series stroke pairs, and restart progress at
0; `none` models a thrown exception. -/
def publishRebuild (st : GraphState) (n : ℕ) (paths : List (Option Curve))
    (stash : Option Curve) (width height : ℕ) : Option GraphState :=
  match allSome paths with
  | none => none
  | some builtPaths =>
      let commands := builtPaths
      let localGradientPaths : List (Option Curve) := List.replicate n none
      if (localGradientPaths.getD 0 none).isSome then none
      else
        let sl := straightLine width height
        let newPairs := (List.range n).map fun i =>
          rebuildPair (st.pathsValues.getD i ⟨none, none⟩)
            (st.progresses.getD i 0) (builtPaths.getD i []) sl
        some ⟨newPairs, st.gradientPair, stash, commands, List.replicate n 0⟩

/-- The rebuild effect of AnimatedLineGraph.tsx (lines 206 to 306) as a pure
step on GraphState. It returns the state unchanged while the view is
unmeasured or any series has an empty filtered point set. In gradient mode
only series 0 is built (the other entries of the local paths array keep
their non-path placeholder) and the freshly built gradient path is stored on
the stray gradientPaths[0] property slot (the stash) instead of the local
array read by the publish guard. -/
def rebuild (st : GraphState) (allPoints : List (List Sample))
    (range : Option GraphRange) (hPad vPad : ℚ) (width height : ℕ)
    (shouldFillGradient : Bool) : Option GraphState :=
  if height < 1 ∨ width < 1 then some st
  else
    let pathRanges := allPoints.map fun pts => getGraphPathRange pts range
    let pointsInRanges := (allPoints.zip pathRanges).map fun pr =>
      getPointsInRange pr.1 pr.2
    if pointsInRanges.any (fun ps => decide (ps.length < 1)) then some st
    else
      let n := allPoints.length
      let configs : List GraphPathConfig :=
        (pointsInRanges.zip pathRanges).map fun pr =>
          ⟨pr.1, pr.2, hPad, vPad, (height : ℚ), (width : ℚ)⟩
      match shouldFillGradient, configs.head? with
      | true, none => none
      | true, some cfg0 =>
          let built := createGraphPathWithGradient cfg0
          let paths : List (Option Curve) :=
            some built.1 :: List.replicate (n - 1) none
          publishRebuild st n paths (some built.2) width height
      | false, _ =>
          publishRebuild st n (configs.map fun c => some (createGraphPath c))
            st.gradientStash width height

/-- Point on a cubic Bezier with ends p0, p3 and controls p1, p2 at t. -/
def cubicAt (p0 p1 p2 p3 : Point) (t : ℚ) : Point :=
  ⟨(1 - t) ^ 3 * p0.x + 3 * (1 - t) ^ 2 * t * p1.x +
     3 * (1 - t) * t ^ 2 * p2.x + t ^ 3 * p3.x,
   (1 - t) ^ 3 * p0.y + 3 * (1 - t) ^ 2 * t * p1.y +
     3 * (1 - t) * t ^ 2 * p2.y + t ^ 3 * p3.y⟩

/-- Fixed-depth bisection for the parameter whose image under f reaches the
target, assuming f monotone increasing on the bracket. -/
def bisectT (f : ℚ → ℚ) (target : ℚ) : ℕ → ℚ → ℚ → ℚ
  | 0, lo, hi => (lo + hi) / 2
  | n + 1, lo, hi =>
      let mid := (lo + hi) / 2
      if f mid ≤ target then bisectT f target n mid hi
      else bisectT f target n lo mid

/-- Walk of the command sequence used by the Inverse Sampler, carrying the
current pen position; a drawing segment is consulted only when its horizontal
span is non-zero and brackets the query (zero-span segments are skipped). -/
def getYForXAux : Point → Curve → ℚ → Option ℚ
  | _, [], _ => none
  | _, .moveTo p :: rest, x => getYForXAux p rest x
  | cur, .lineTo p :: rest, x =>
      if cur.x ≠ p.x ∧ min cur.x p.x ≤ x ∧ x ≤ max cur.x p.x then
        some (cur.y + (x - cur.x) / (p.x - cur.x) * (p.y - cur.y))
      else getYForXAux p rest x
  | cur, .cubicTo c1 c2 p :: rest, x =>
      if cur.x ≠ p.x ∧ min cur.x p.x ≤ x ∧ x ≤ max cur.x p.x then
        some ((cubicAt cur c1 c2 p
          (bisectT (fun t => (cubicAt cur c1 c2 p t).x) x 20 0 1)).y)
      else getYForXAux p rest x

/-- Modelled from the spec: GetYForX.ts is not under src/. The Inverse
Sampler walks the flattened command sequence tracking the cumulative
horizontal position, solves the bracketing segment for its parameter by
bisection and evaluates its vertical component; it returns none for an empty
sequence or a query outside every segment span. -/
def getYForX (cmds : Curve) (x : ℚ) : Option ℚ :=
  getYForXAux ⟨0, 0⟩ cmds x

/-- The non-zero-width horizontal spans (as min, max pairs) of the drawing
segments of a command walk starting at a given pen position. -/
def hSpansAux : Point → Curve → List (ℚ × ℚ)
  | _, [] => []
  | _, .moveTo p :: rest => hSpansAux p rest
  | cur, .lineTo p :: rest =>
      (if cur.x ≠ p.x then [(min cur.x p.x, max cur.x p.x)] else []) ++
        hSpansAux p rest
  | cur, .cubicTo _ _ p :: rest =>
      (if cur.x ≠ p.x then [(min cur.x p.x, max cur.x p.x)] else []) ++
        hSpansAux p rest

/-- The horizontal spans of the drawing segments of a curve; a query outside
all of them is outside the horizontal extent of the curve. -/
def hSpans (cmds : Curve) : List (ℚ × ℚ) :=
  hSpansAux ⟨0, 0⟩ cmds

/-- The mutable cells written by setFingerXs: the selection-dot coordinates
and the gradient-mask end position. -/
structure FingerState where
  circleX : ℚ
  circleY : ℚ
  pathEnd : ℚ
deriving DecidableEq, Repr

/-- setFingerXs of AnimatedLineGraph.tsx (lines 424 to 444) for one series:
the selection-dot coordinates are moved only when the Inverse Sampler yields
a value, and the mask end tracks the finger while the gesture is active. -/
def setFingerX (cmds : Curve) (width : ℚ) (isActive : Bool)
    (st : FingerState) (fingerX : ℚ) : FingerState :=
  let st1 :=
    match getYForX cmds fingerX with
    | some y => { st with circleX := fingerX, circleY := y }
    | none => st
  if isActive then { st1 with pathEnd := fingerX / width } else st1

/-- indicatorYs of AnimatedLineGraph.tsx (lines 196 to 200) for one series:
getYForX(commands, indicatorX) with a JavaScript or-zero fallback. -/
def indicatorY (cmds : Curve) (x : ℚ) : ℚ :=
  (getYForX cmds x).getD 0

/-- JavaScript Math.round: floor of the argument plus one half. -/
def jsRound (q : ℚ) : ℤ :=
  ⌊q + 1 / 2⌋

/-- The sample index computed by setFingerPoints (lines 392 to 403): the
finger offset inside the padded area, divided by the screen x of the last
in-range point, scaled by the sample count minus one, rounded, then clamped
into the index range. -/
def selectedPointIndex (points : List Sample) (axisX : RangeAxis)
    (drawingWidth hPad fingerX : ℚ) : ℕ :=
  let fingerXInRange := max (fingerX - hPad) 0
  let lastDate := ((points.getLast?).map (·.date)).getD 0
  let idx := jsRound
    (fingerXInRange / getXInRange drawingWidth lastDate axisX *
      ((points.length : ℚ) - 1))
  (min (max idx 0) ((points.length : ℤ) - 1)).toNat

/-- setFingerPoints of AnimatedLineGraph.tsx (lines 389 to 422) for one
series, as a step on the single shared pointSelectedIndex ref: the result is
the new ref content together with the callback invocation, if any (the
sample handed to onPointSelected and the series index). The ref is compared
and updated before the null check on the data point. -/
def setFingerPoint (points : List Sample) (axisX : RangeAxis)
    (drawingWidth hPad : ℚ) (seriesIndex : ℕ) (prevSelected : Option ℕ)
    (fingerX : ℚ) : Option ℕ × Option (Sample × ℕ) :=
  let pointIndex := selectedPointIndex points axisX drawingWidth hPad fingerX
  if prevSelected ≠ some pointIndex then
    (some pointIndex, (points.get? pointIndex).map fun dp => (dp, seriesIndex))
  else (prevSelected, none)

/-- Screen x position of a sample: padding plus its share of the drawing
width, as used for the indicator position. -/
def sampleScreenX (axisX : RangeAxis) (drawingWidth hPad : ℚ) (p : Sample) : ℚ :=
  hPad + getXInRange drawingWidth p.date axisX

/-- Stated from the words of the claim, for comparison with the source
computation: the index of the in-range sample whose screen x position is
nearest to the finger (first such index on ties). -/
def nearestSampleIndex (points : List Sample) (axisX : RangeAxis)
    (drawingWidth hPad fingerX : ℚ) : ℕ :=
  let dist := fun p => |sampleScreenX axisX drawingWidth hPad p - fingerX|
  (List.range points.length).foldl
    (fun best i =>
      if dist (points.getD i ⟨0, 0⟩) < dist (points.getD best ⟨0, 0⟩) then i
      else best) 0


section InterpolationLemmas

theorem sameVerb_refl (c : PathCmd) : sameVerb c c = true := by
  cases c <;> rfl

theorem isInterpolatable_refl (a : Curve) : isInterpolatable a a = true := by
  induction a with
  | nil => rfl
  | cons c cs ih => simp [isInterpolatable, sameVerb_refl, ih]

theorem isInterpolatable_symm {a b : Curve} (h : isInterpolatable a b = true) :
    isInterpolatable b a = true := by
  induction a generalizing b with
  | nil => cases b with
    | nil => rfl
    | cons _ _ => simp [isInterpolatable] at h
  | cons c cs ih =>
    cases b with
    | nil => simp [isInterpolatable] at h
    | cons d ds =>
      simp only [isInterpolatable, Bool.and_eq_true] at h ⊢
      refine ⟨?_, ih h.2⟩
      cases c <;> cases d <;> simp_all [sameVerb]

theorem blendPoint_self (w : ℚ) (p : Point) : blendPoint w p p = p := by
  have hx : w * p.x + (1 - w) * p.x = p.x := by ring
  have hy : w * p.y + (1 - w) * p.y = p.y := by ring
  simp [blendPoint, hx, hy]

theorem blendCmd_self (w : ℚ) (c : PathCmd) : blendCmd w c c = c := by
  cases c <;> simp [blendCmd, blendPoint_self]

theorem blendPoint_zero (p q : Point) : blendPoint 0 p q = q := by
  simp [blendPoint]

theorem blendPoint_one (p q : Point) : blendPoint 1 p q = p := by
  simp [blendPoint]

theorem blendCmd_zero {c d : PathCmd} (h : sameVerb c d = true) :
    blendCmd 0 c d = d := by
  cases c <;> cases d <;> simp_all [sameVerb, blendCmd, blendPoint_zero]

theorem blendCmd_one (c d : PathCmd) : blendCmd 1 c d = c := by
  cases c <;> cases d <;> simp [blendCmd, blendPoint_one]

theorem zipWith_blend_zero {a b : Curve} (h : isInterpolatable a b = true) :
    List.zipWith (blendCmd 0) a b = b := by
  induction a generalizing b with
  | nil => cases b with
    | nil => rfl
    | cons _ _ => simp [isInterpolatable] at h
  | cons c cs ih =>
    cases b with
    | nil => simp [isInterpolatable] at h
    | cons d ds =>
      simp only [isInterpolatable, Bool.and_eq_true] at h
      simp [List.zipWith, blendCmd_zero h.1, ih h.2]

theorem zipWith_blend_one (a b : Curve) (h : isInterpolatable a b = true) :
    List.zipWith (blendCmd 1) a b = a := by
  induction a generalizing b with
  | nil => cases b with
    | nil => rfl
    | cons _ _ => simp [isInterpolatable] at h
  | cons c cs ih =>
    cases b with
    | nil => simp [isInterpolatable] at h
    | cons d ds =>
      simp only [isInterpolatable, Bool.and_eq_true] at h
      simp [List.zipWith, blendCmd_one, ih ds h.2]

theorem interpolate_zero {a b : Curve} (h : isInterpolatable a b = true) :
    interpolate a b 0 = some b := by
  simp [interpolate, h, zipWith_blend_zero h]

theorem interpolate_one {a b : Curve} (h : isInterpolatable a b = true) :
    interpolate a b 1 = some a := by
  simp [interpolate, h, zipWith_blend_one a b h]

theorem interpolate_self (a : Curve) (w : ℚ) : interpolate a a w = some a := by
  have hz : List.zipWith (blendCmd w) a a = a := by
    induction a with
    | nil => rfl
    | cons c cs ih => rw [List.zipWith_cons_cons, blendCmd_self, ih]
  rw [interpolate, if_pos (isInterpolatable_refl a), hz]

end InterpolationLemmas

section SamplerLemmas

theorem getYForXAux_eq_none {x : ℚ} :
    ∀ (cmds : Curve) (cur : Point),
      (∀ s ∈ hSpansAux cur cmds, x < s.1 ∨ s.2 < x) →
      getYForXAux cur cmds x = none := by
  intro cmds
  induction cmds with
  | nil => intro cur _; rfl
  | cons c rest ih =>
    intro cur h
    cases c with
    | moveTo p =>
      exact ih p (by simpa [hSpansAux] using h)
    | lineTo p =>
      by_cases hx : cur.x = p.x
      · rw [getYForXAux, if_neg (by simp [hx])]
        exact ih p (by simpa [hSpansAux, hx] using h)
      · have hs := h (min cur.x p.x, max cur.x p.x) (by simp [hSpansAux, hx])
        rw [getYForXAux, if_neg ?_]
        · exact ih p fun s hss => h s (by simp [hSpansAux, hx, hss])
        · rintro ⟨-, h1, h2⟩
          rcases hs with h3 | h3
          · exact absurd h1 (not_le.mpr h3)
          · exact absurd h2 (not_le.mpr h3)
    | cubicTo c1 c2 p =>
      by_cases hx : cur.x = p.x
      · rw [getYForXAux, if_neg (by simp [hx])]
        exact ih p (by simpa [hSpansAux, hx] using h)
      · have hs := h (min cur.x p.x, max cur.x p.x) (by simp [hSpansAux, hx])
        rw [getYForXAux, if_neg ?_]
        · exact ih p fun s hss => h s (by simp [hSpansAux, hx, hss])
        · rintro ⟨-, h1, h2⟩
          rcases hs with h3 | h3
          · exact absurd h1 (not_le.mpr h3)
          · exact absurd h2 (not_le.mpr h3)

theorem getYForX_eq_none {cmds : Curve} {x : ℚ}
    (h : ∀ s ∈ hSpans cmds, x < s.1 ∨ s.2 < x) :
    getYForX cmds x = none :=
  getYForXAux_eq_none cmds ⟨0, 0⟩ h

theorem selectedPointIndex_lt {points : List Sample} (axisX : RangeAxis)
    (drawingWidth hPad fingerX : ℚ) (h : points ≠ []) :
    selectedPointIndex points axisX drawingWidth hPad fingerX <
      points.length := by
  have hlen : 1 ≤ points.length := List.length_pos.mpr h
  have key : ∀ z : ℤ,
      (min (max z 0) ((points.length : ℤ) - 1)).toNat < points.length := by
    intro z; omega
  exact key (jsRound
    ((max (fingerX - hPad) 0) /
        getXInRange drawingWidth
          (((points.getLast?).map (·.date)).getD 0) axisX *
      ((points.length : ℚ) - 1)))

theorem setFingerPoint_fst (points : List Sample) (axisX : RangeAxis)
    (drawingWidth hPad fingerX : ℚ) (i : ℕ) (s : Option ℕ) :
    (setFingerPoint points axisX drawingWidth hPad i s fingerX).1 =
      some (selectedPointIndex points axisX drawingWidth hPad fingerX) := by
  unfold setFingerPoint
  by_cases hs : s = some (selectedPointIndex points axisX drawingWidth hPad fingerX)
  · simp [hs]
  · simp [hs]

end SamplerLemmas

section RebuildLemmas

theorem zip_ranges_map (range : Option GraphRange) :
    ∀ l : List (List Sample),
      ((l.zip (l.map fun pts => getGraphPathRange pts range)).map fun pr =>
          getPointsInRange pr.1 pr.2) =
        l.map fun pts => getPointsInRange pts (getGraphPathRange pts range) := by
  intro l
  induction l with
  | nil => rfl
  | cons a as ih => simp only [List.map_cons, List.zip_cons_cons, ih]

theorem allSome_cons_replicate_none (c : Curve) (k : ℕ) (hk : 1 ≤ k) :
    allSome (some c :: List.replicate k none) = none := by
  cases k with
  | zero => omega
  | succ m => simp [List.replicate_succ, allSome]

end RebuildLemmas

/-- C1: on a curve rebuild, when the previously published pair has a
non-absent `from` and the in-flight progress is strictly below 1, the claim
says the new pair resumes at the interpolation of the previous `from` and
`to` at that progress; as stated this fails when the freshly built curve is
not interpolatable with that computed curve, because the rebuild then
publishes the hard cut (new, new) instead. Here the previous pair is a
one-command path, progress is 0, and the fresh two-command path is
incompatible. -/
theorem c1_counterexample :
    (rebuildPair ⟨some [.moveTo ⟨0, 0⟩], some [.moveTo ⟨0, 0⟩]⟩ 0
        [.moveTo ⟨0, 0⟩, .lineTo ⟨1, 1⟩] []).fromC ≠
      interpolate [.moveTo ⟨0, 0⟩] [.moveTo ⟨0, 0⟩] 0 := by
  rw [interpolate_self]
  decide

/-- C1 (amended): provided the freshly built curve is structurally
interpolatable with the computed carry-over curve, a rebuild with previous
`from` present and progress below 1 publishes as new `from` the blend of the
previous `to` towards the previous `from` at the current progress, and with
progress at least 1 it publishes the previous `to`; in both cases the new
`to` is the freshly built curve. -/
theorem c1_rebuild_from_captures_inflight (prev : CurvePair)
    (f t np m sl : Curve) (p : ℚ)
    (hf : prev.fromC = some f) (ht : prev.toC = some t) :
    (p < 1 → interpolate t f p = some m → isInterpolatable np m = true →
      rebuildPair prev p np sl = ⟨some m, some np⟩) ∧
    (1 ≤ p → isInterpolatable np t = true →
      rebuildPair prev p np sl = ⟨some t, some np⟩) := by
  constructor
  · intro hp hi hc
    simp [rebuildPair, hf, ht, hp, hi, hc]
  · intro hp hc
    simp [rebuildPair, hf, ht, not_lt.mpr hp, hc]

/-- C1 witness: previous pair from (0,0) to (2,2), progress 0 (below 1),
fresh compatible path at (5,5); the published pair resumes at the blend at
progress 0, namely the previous `from`, and moves to the fresh path. -/
theorem c1_witness :
    rebuildPair ⟨some [.moveTo ⟨0, 0⟩], some [.moveTo ⟨2, 2⟩]⟩ 0
        [.moveTo ⟨5, 5⟩] [] =
      ⟨some [.moveTo ⟨0, 0⟩], some [.moveTo ⟨5, 5⟩]⟩ :=
  (c1_rebuild_from_captures_inflight
      ⟨some [.moveTo ⟨0, 0⟩], some [.moveTo ⟨2, 2⟩]⟩ [.moveTo ⟨0, 0⟩]
      [.moveTo ⟨2, 2⟩] [.moveTo ⟨5, 5⟩] [.moveTo ⟨0, 0⟩] [] 0 rfl rfl).1
    (by decide) (interpolate_zero (by decide)) (by decide)

/-- C2: for a pair with both endpoints present and structurally compatible,
the rendered interpolation equals the `from` curve exactly at progress 0 and
the `to` curve exactly at progress 1. -/
theorem c2_transition_endpoints (pair : CurvePair) (f t sl : Curve)
    (hf : pair.fromC = some f) (ht : pair.toC = some t)
    (hc : isInterpolatable f t = true) :
    renderPath pair sl 0 = some f ∧ renderPath pair sl 1 = some t := by
  have hc' := isInterpolatable_symm hc
  constructor
  · simp [renderPath, hf, ht, interpolate_zero hc']
  · simp [renderPath, hf, ht, interpolate_one hc']

/-- C3: the claim says an incompatible fresh gradient curve makes the engine
publish the hard cut pair (new, new) for the gradient fill path; in the code
the gradient publish block is dead (its guard reads a local array that is
never written, the fresh gradient path having been stored on a stray
property of the gradientPaths value instead), so a rebuild never modifies
the gradient pair at all, whatever the inputs: on every non-throwing rebuild
the published gradient pair is exactly the previous one. -/
theorem c3_gradient_pair_never_published (st : GraphState)
    (allPoints : List (List Sample)) (range : Option GraphRange)
    (hPad vPad : ℚ) (width height : ℕ) (g : Bool) :
    (rebuild st allPoints range hPad vPad width height g).map (·.gradientPair) =
      (rebuild st allPoints range hPad vPad width height g).map
        (fun _ => st.gradientPair) := by
  simp only [rebuild]
  split
  · rfl
  · split
    · rfl
    · split
      · rfl
      · simp only [publishRebuild]
        split
        · rfl
        · split
          · rfl
          · rfl
      · simp only [publishRebuild]
        split
        · rfl
        · split
          · rfl
          · rfl

/-- C5: with gradient-fill mode enabled and at least two series, the rebuild
effect builds only series 0 (the other entries of its local paths array keep
the numeric placeholder) and then throws calling toCmds on the placeholder,
so the later series are dropped; the model returns none (an exception)
although the view is measured and no series is empty. -/
theorem c5_gradient_multiseries_throws (st : GraphState)
    (allPoints : List (List Sample)) (range : Option GraphRange)
    (hPad vPad : ℚ) (width height : ℕ)
    (hn : 2 ≤ allPoints.length) (hw : 1 ≤ width) (hh : 1 ≤ height)
    (hne : (allPoints.map fun pts =>
        getPointsInRange pts (getGraphPathRange pts range)).any
        (fun ps => decide (ps.length < 1)) = false) :
    rebuild st allPoints range hPad vPad width height true = none := by
  obtain ⟨p0, tl, rfl⟩ : ∃ p0 tl, allPoints = p0 :: tl := by
    cases allPoints with
    | nil => simp at hn
    | cons a l => exact ⟨a, l, rfl⟩
  obtain ⟨p1, tl2, rfl⟩ : ∃ p1 tl2, tl = p1 :: tl2 := by
    cases tl with
    | nil => simp at hn
    | cons a l => exact ⟨a, l, rfl⟩
  simp only [rebuild]
  rw [if_neg (by omega : ¬ (height < 1 ∨ width < 1))]
  rw [zip_ranges_map range (p0 :: p1 :: tl2), hne]
  simp only [Bool.false_eq_true, if_false, List.map_cons, List.zip_cons_cons,
    List.head?_cons, List.length_cons]
  rw [publishRebuild,
    allSome_cons_replicate_none _ (tl2.length + 1 + 1 - 1) (by omega)]

/-- C5 witness: two identical two-sample series, a measured 10 by 10 canvas
and gradient mode; the rebuild throws. -/
theorem c5_witness :
    2 ≤ ([[⟨0, 0⟩, ⟨1, 1⟩], [⟨0, 0⟩, ⟨1, 1⟩]] : List (List Sample)).length ∧
      (([[⟨0, 0⟩, ⟨1, 1⟩], [⟨0, 0⟩, ⟨1, 1⟩]] : List (List Sample)).map fun pts =>
          getPointsInRange pts (getGraphPathRange pts none)).any
        (fun ps => decide (ps.length < 1)) = false ∧
      rebuild ⟨[⟨none, none⟩, ⟨none, none⟩], ⟨none, none⟩, none, [[], []], [0, 0]⟩
        [[⟨0, 0⟩, ⟨1, 1⟩], [⟨0, 0⟩, ⟨1, 1⟩]] none 0 0 10 10 true = none :=
  ⟨by decide, by decide,
    c5_gradient_multiseries_throws
      ⟨[⟨none, none⟩, ⟨none, none⟩], ⟨none, none⟩, none, [[], []], [0, 0]⟩
      [[⟨0, 0⟩, ⟨1, 1⟩], [⟨0, 0⟩, ⟨1, 1⟩]] none 0 0 10 10
      (by decide) (by decide) (by decide) (by decide)⟩

/-- C6: when any series has an empty filtered point set, the rebuild effect
returns before building any curve or publishing any pair: the state is
returned unchanged and nothing throws. -/
theorem c6_empty_series_skips_rebuild (st : GraphState)
    (allPoints : List (List Sample)) (range : Option GraphRange)
    (hPad vPad : ℚ) (width height : ℕ) (g : Bool)
    (h : (allPoints.map fun pts =>
        getPointsInRange pts (getGraphPathRange pts range)).any
        (fun ps => decide (ps.length < 1)) = true) :
    rebuild st allPoints range hPad vPad width height g = some st := by
  simp only [rebuild]
  split
  · rfl
  · rw [zip_ranges_map range allPoints, h]
    simp

/-- C6 witness: a single series whose only sample lies outside the explicit
x range override, so its filtered set is empty; the rebuild is a no-op. -/
theorem c6_witness :
    (([[⟨5, 1⟩]] : List (List Sample)).map fun pts =>
        getPointsInRange pts (getGraphPathRange pts (some ⟨some ⟨0, 1⟩, none⟩))).any
      (fun ps => decide (ps.length < 1)) = true ∧
    rebuild ⟨[⟨none, none⟩], ⟨none, none⟩, none, [[]], [0]⟩ [[⟨5, 1⟩]]
        (some ⟨some ⟨0, 1⟩, none⟩) 0 0 10 10 false =
      some ⟨[⟨none, none⟩], ⟨none, none⟩, none, [[]], [0]⟩ :=
  ⟨by decide,
    c6_empty_series_skips_rebuild ⟨[⟨none, none⟩], ⟨none, none⟩, none, [[]], [0]⟩
      [[⟨5, 1⟩]] (some ⟨some ⟨0, 1⟩, none⟩) 0 0 10 10 false (by decide)⟩

/-- C2 witness: a concrete pair of one-command curves. -/
theorem c2_witness :
    renderPath ⟨some [.moveTo ⟨0, 1⟩], some [.moveTo ⟨2, 3⟩]⟩ [] 0 =
        some [.moveTo ⟨0, 1⟩] ∧
      renderPath ⟨some [.moveTo ⟨0, 1⟩], some [.moveTo ⟨2, 3⟩]⟩ [] 1 =
        some [.moveTo ⟨2, 3⟩] :=
  c2_transition_endpoints ⟨some [.moveTo ⟨0, 1⟩], some [.moveTo ⟨2, 3⟩]⟩
    [.moveTo ⟨0, 1⟩] [.moveTo ⟨2, 3⟩] [] rfl rfl (by decide)

/-- C4 counterexample: with unevenly spaced dates 0, 9, 10 over the window
0 to 10 and a drawing width of 100, a finger at x = 30 invokes the callback
with the sample at date 9 (screen x 90, distance 60) although the nearest
sample is the one at date 0 (screen x 0, distance 30): the code selects by
proportional index, not by nearness. -/
theorem c4_counterexample :
    (setFingerPoint [⟨0, 0⟩, ⟨9, 0⟩, ⟨10, 0⟩] ⟨0, 10⟩ 100 0 0 none 30).2 =
        some (⟨9, 0⟩, 0) ∧
      nearestSampleIndex [⟨0, 0⟩, ⟨9, 0⟩, ⟨10, 0⟩] ⟨0, 10⟩ 100 0 30 = 0 ∧
      (⟨9, 0⟩ : Sample) ≠
        ([⟨0, 0⟩, ⟨9, 0⟩, ⟨10, 0⟩] : List Sample).getD 0 ⟨0, 0⟩ := by
  refine ⟨?_, ?_, by decide⟩
  · have hidx :
        selectedPointIndex [⟨0, 0⟩, ⟨9, 0⟩, ⟨10, 0⟩] ⟨0, 10⟩ 100 0 30 = 1 := by
      norm_num [selectedPointIndex, getXInRange, jsRound]
    simp [setFingerPoint, hidx]
  · rw [nearestSampleIndex,
      show List.range ([⟨0, 0⟩, ⟨9, 0⟩, ⟨10, 0⟩] : List Sample).length =
        [0, 1, 2] by decide]
    norm_num [sampleScreenX, getXInRange]

/-- C4 (amended): for a nonempty in-range point set, each call computes the
proportionally mapped, rounded and clamped sample index (which coincides
with the nearest sample only for evenly spaced dates); the callback fires
with that sample and the series index exactly when the index differs from
the last selected index held in the ref shared by all series, and the ref is
always left holding the computed index. -/
theorem c4_selection_characterisation (points : List Sample)
    (axisX : RangeAxis) (drawingWidth hPad fingerX : ℚ) (i : ℕ)
    (prev : Option ℕ) (h : points ≠ []) :
    setFingerPoint points axisX drawingWidth hPad i prev fingerX =
      (some (selectedPointIndex points axisX drawingWidth hPad fingerX),
       if prev = some (selectedPointIndex points axisX drawingWidth hPad fingerX)
       then none
       else some (points.getD
         (selectedPointIndex points axisX drawingWidth hPad fingerX) ⟨0, 0⟩, i)) := by
  have hlt := selectedPointIndex_lt axisX drawingWidth hPad fingerX h
  unfold setFingerPoint
  by_cases hp :
      prev = some (selectedPointIndex points axisX drawingWidth hPad fingerX)
  · simp [hp]
  · simp only [hp, if_neg, ne_eq, not_false_eq_true, if_true,
      reduceIte, Prod.mk.injEq, true_and]
    rw [List.getD_eq_getElem points ⟨0, 0⟩ hlt]
    rw [List.get?_eq_getElem?, List.getElem?_eq_getElem hlt]
    rfl

/-- C4 witness: two samples over the window 0 to 10, finger at the right
edge, no previous selection; the call publishes the computed index and
invokes the callback with the sample at that index. -/
theorem c4_witness :
    setFingerPoint [⟨0, 0⟩, ⟨10, 1⟩] ⟨0, 10⟩ 100 0 0 none 100 =
      (some (selectedPointIndex [⟨0, 0⟩, ⟨10, 1⟩] ⟨0, 10⟩ 100 0 100),
       if (none : Option ℕ) =
           some (selectedPointIndex [⟨0, 0⟩, ⟨10, 1⟩] ⟨0, 10⟩ 100 0 100)
       then none
       else some (([⟨0, 0⟩, ⟨10, 1⟩] : List Sample).getD
         (selectedPointIndex [⟨0, 0⟩, ⟨10, 1⟩] ⟨0, 10⟩ 100 0 100) ⟨0, 0⟩, 0)) :=
  c4_selection_characterisation [⟨0, 0⟩, ⟨10, 1⟩] ⟨0, 10⟩ 100 0 100 0 none
    (by decide)

/-- C7: when the query lies outside every horizontal segment span of the
curve (in particular when the command sequence is empty), the Inverse
Sampler returns none rather than throwing, and the pointer-move handler
leaves the selection-dot coordinates untouched. -/
theorem c7_out_of_extent_returns_none (cmds : Curve) (x width : ℚ)
    (active : Bool) (st : FingerState)
    (h : ∀ s ∈ hSpans cmds, x < s.1 ∨ s.2 < x) :
    getYForX cmds x = none ∧
      (setFingerX cmds width active st x).circleX = st.circleX ∧
      (setFingerX cmds width active st x).circleY = st.circleY := by
  have hn : getYForX cmds x = none := getYForX_eq_none h
  refine ⟨hn, ?_, ?_⟩ <;>
    · unfold setFingerX
      rw [hn]
      cases active <;> rfl

/-- C7 witness: a one-segment curve spanning x in 0 to 10 queried at 20,
with the dot parked at (1, 2); nothing moves and no value is produced. -/
theorem c7_witness :
    getYForX [.moveTo ⟨0, 0⟩, .cubicTo ⟨3, 1⟩ ⟨6, 2⟩ ⟨10, 5⟩] 20 = none ∧
      (setFingerX [.moveTo ⟨0, 0⟩, .cubicTo ⟨3, 1⟩ ⟨6, 2⟩ ⟨10, 5⟩] 100 true
        ⟨1, 2, 3⟩ 20).circleX = 1 ∧
      (setFingerX [.moveTo ⟨0, 0⟩, .cubicTo ⟨3, 1⟩ ⟨6, 2⟩ ⟨10, 5⟩] 100 true
        ⟨1, 2, 3⟩ 20).circleY = 2 :=
  c7_out_of_extent_returns_none
    [.moveTo ⟨0, 0⟩, .cubicTo ⟨3, 1⟩ ⟨6, 2⟩ ⟨10, 5⟩] 20 100 true ⟨1, 2, 3⟩
    (by decide)

/-- C8 counterexample: the same series, point data and finger position give
different callback decisions depending on the content the shared
pointSelectedIndex ref was left with by earlier calls, so the selection
computation is not independent of previously performed computations. -/
theorem c8_counterexample :
    (setFingerPoint [⟨0, 0⟩, ⟨1, 1⟩] ⟨0, 1⟩ 100 0 0 none 0).2 ≠
      (setFingerPoint [⟨0, 0⟩, ⟨1, 1⟩] ⟨0, 1⟩ 100 0 0 (some 0) 0).2 := by
  have hidx : selectedPointIndex [⟨0, 0⟩, ⟨1, 1⟩] ⟨0, 1⟩ 100 0 0 = 0 := by
    norm_num [selectedPointIndex, getXInRange, jsRound]
  simp [setFingerPoint, hidx]

/-- C8 (amended): the computed sample index is deterministic in the inputs
and independent of the shared ref state (the published ref content is the
same whatever the previous state), but the callback decision is not: it
fires exactly when the previously stored index, shared across series and
calls, differs from the computed index. -/
theorem c8_selection_state_dependence (points : List Sample)
    (axisX : RangeAxis) (drawingWidth hPad fingerX : ℚ) (i : ℕ)
    (s1 s2 : Option ℕ) (h : points ≠ []) :
    (setFingerPoint points axisX drawingWidth hPad i s1 fingerX).1 =
      (setFingerPoint points axisX drawingWidth hPad i s2 fingerX).1 ∧
    ((setFingerPoint points axisX drawingWidth hPad i s1 fingerX).2 = none ↔
      s1 = some (selectedPointIndex points axisX drawingWidth hPad fingerX)) := by
  constructor
  · rw [setFingerPoint_fst, setFingerPoint_fst]
  · have hlt := selectedPointIndex_lt axisX drawingWidth hPad fingerX h
    unfold setFingerPoint
    by_cases hp :
        s1 = some (selectedPointIndex points axisX drawingWidth hPad fingerX)
    · simp [hp]
    · simp only [hp, ne_eq, not_false_eq_true, if_true, reduceIte]
      rw [List.get?_eq_getElem?, List.getElem?_eq_getElem hlt]
      simp [hp]

/-- C8 witness: a two-sample series probed at the left edge twice, once with
an empty shared ref and once with the ref already holding the computed
index; the published ref content agrees and the callback decision is
characterised by the ref comparison. -/
theorem c8_witness :
    (setFingerPoint [⟨0, 0⟩, ⟨1, 1⟩] ⟨0, 1⟩ 100 0 0 none 0).1 =
      (setFingerPoint [⟨0, 0⟩, ⟨1, 1⟩] ⟨0, 1⟩ 100 0 0 (some 0) 0).1 ∧
    ((setFingerPoint [⟨0, 0⟩, ⟨1, 1⟩] ⟨0, 1⟩ 100 0 0 none 0).2 = none ↔
      (none : Option ℕ) =
        some (selectedPointIndex [⟨0, 0⟩, ⟨1, 1⟩] ⟨0, 1⟩ 100 0 0)) :=
  c8_selection_state_dependence [⟨0, 0⟩, ⟨1, 1⟩] ⟨0, 1⟩ 100 0 0 0 none (some 0)
    (by decide)

/-- C9: an absent transition endpoint is replaced by the straightLine
placeholder: with both endpoints absent the rendered curve is exactly the
placeholder at every progress, with `from` absent the render at progress 0
is the placeholder, with `to` absent the render at progress 1 is the
placeholder; and the placeholder is a flat zero-slope chain, every control
point of every command sitting at the fixed height of half the canvas. -/
theorem c9_placeholder_substitution (width height : ℕ) (t : Curve) (p : ℚ)
    (ht : isInterpolatable t (straightLine width height) = true) :
    renderPath ⟨none, none⟩ (straightLine width height) p =
        some (straightLine width height) ∧
      renderPath ⟨none, some t⟩ (straightLine width height) 0 =
        some (straightLine width height) ∧
      renderPath ⟨some t, none⟩ (straightLine width height) 1 =
        some (straightLine width height) ∧
      ∀ c ∈ straightLine width height, ∀ q ∈ cmdPoints c,
        q.y = (height : ℚ) / 2 := by
  refine ⟨?_, ?_, ?_, ?_⟩
  · simp [renderPath, interpolate_self]
  · simp [renderPath, interpolate_zero ht]
  · simp [renderPath, interpolate_one (isInterpolatable_symm ht)]
  · intro c hc q hq
    simp only [straightLine, List.mem_cons, List.mem_map, List.mem_range] at hc
    rcases hc with rfl | ⟨k, -, rfl⟩
    · simp only [cmdPoints, List.mem_singleton] at hq
      rw [hq]
    · simp only [cmdPoints, List.mem_cons, List.mem_singleton,
        List.not_mem_nil, or_false] at hq
      rcases hq with rfl | rfl | rfl <;> rfl

/-- C9 witness: a 4 by 6 canvas with the placeholder itself as the present
endpoint; the three substitution equalities hold concretely. -/
theorem c9_witness :
    renderPath ⟨none, none⟩ (straightLine 4 6) (1 / 3) =
        some (straightLine 4 6) ∧
      renderPath ⟨none, some (straightLine 4 6)⟩ (straightLine 4 6) 0 =
        some (straightLine 4 6) ∧
      renderPath ⟨some (straightLine 4 6), none⟩ (straightLine 4 6) 1 =
        some (straightLine 4 6) :=
  ⟨(c9_placeholder_substitution 4 6 (straightLine 4 6) (1 / 3)
      (isInterpolatable_refl (straightLine 4 6))).1,
    (c9_placeholder_substitution 4 6 (straightLine 4 6) (1 / 3)
      (isInterpolatable_refl (straightLine 4 6))).2.1,
    (c9_placeholder_substitution 4 6 (straightLine 4 6) (1 / 3)
      (isInterpolatable_refl (straightLine 4 6))).2.2.1⟩

/-- C10: whenever the Inverse Sampler yields no value at the indicator x
position, the published indicator y coordinate is 0 (the canvas top edge),
not an absent value and not the previous position. -/
theorem c10_indicator_zero_when_no_value (cmds : Curve) (x : ℚ)
    (h : getYForX cmds x = none) : indicatorY cmds x = 0 := by
  simp [indicatorY, h]

/-- C10 witness: the one-segment curve spanning x in 0 to 10 probed at 25
publishes indicator y 0. -/
theorem c10_witness :
    indicatorY [.moveTo ⟨0, 0⟩, .cubicTo ⟨3, 1⟩ ⟨6, 2⟩ ⟨10, 5⟩] 25 = 0 :=
  c10_indicator_zero_when_no_value
    [.moveTo ⟨0, 0⟩, .cubicTo ⟨3, 1⟩ ⟨6, 2⟩ ⟨10, 5⟩] 25 (by decide)

end RNGraph
